import Mathlib

/- Verification of the DROID-Splat optimization backend.

A shallow embedding of the bundle-adjustment core (src/geom/ba.py) and the
process orchestrator (src/slam.py).  Torch tensors are modelled as Lists; the
batch dimension (always 1 at every call site) is dropped; per-pixel maps are
elements of a generic additive type, scalar tensors are ℚ; integer index
tensors are List Int.  The pieces of the pipeline that live outside the given
sources (the lietorch pose type, geom/chol.py solvers, geom/projective_ops.py
Jacobians) enter as parameters of the embedded functions. -/

/-- torch_scatter.scatter_sum with dim_size = n, written over (index, value)
pairs: out[t] is the sum of all values whose index equals t.  The call sites
below only pass in-range indices. -/
def scatter_sum {α : Type} [Add α] [Zero α] : List (Int × α) → Nat → List α
  | [], n => List.replicate n 0
  | (i, a) :: rest, n =>
    let acc := scatter_sum rest n
    if 0 ≤ i ∧ i.toNat < n then acc.set i.toNat (a + acc.getD i.toNat 0) else acc

/-- The mask-and-flatten step of ba.py safe_scatter_add_mat (line 72-73):
keep the entries with (ii >= 0) & (jj >= 0) & (ii < n) & (jj < m) and pair each
kept block with its flat index ii * m + jj. -/
def mat_scatter_pairs {α : Type} : List α → List Int → List Int → Nat → Nat → List (Int × α)
  | a :: A, i :: is, j :: js, n, m =>
    let rest := mat_scatter_pairs A is js n m
    if 0 ≤ i ∧ 0 ≤ j ∧ i < (n : Int) ∧ j < (m : Int) then (i * m + j, a) :: rest else rest
  | _, _, _, _, _ => []

/-- ba.py safe_scatter_add_mat: scatter dense per-edge blocks A into an n*m
block-sparse matrix, dropping negative and out-of-range indices. -/
def safe_scatter_add_mat {α : Type} [Add α] [Zero α]
    (A : List α) (ii jj : List Int) (n m : Nat) : List α :=
  scatter_sum (mat_scatter_pairs A ii jj n m) (n * m)

/-- The mask step of ba.py safe_scatter_add_vec (line 81-82):
keep the entries with (ii >= 0) & (ii < n). -/
def vec_scatter_pairs {α : Type} : List α → List Int → Nat → List (Int × α)
  | a :: b, i :: is, n =>
    let rest := vec_scatter_pairs b is n
    if 0 ≤ i ∧ i < (n : Int) then (i, a) :: rest else rest
  | _, _, _ => []

/-- ba.py safe_scatter_add_vec: scatter dense per-edge blocks b into a sparse
length-n vector, dropping negative and out-of-range indices. -/
def safe_scatter_add_vec {α : Type} [Add α] [Zero α]
    (b : List α) (ii : List Int) (n : Nat) : List α :=
  scatter_sum (vec_scatter_pairs b ii n) n

/-- Tensor.scatter_add_: accumulate the values into the existing buffer at the
given flat indices; a target index outside the buffer is a runtime error. -/
def scatter_add_inplace {α : Type} [Add α] [Zero α] : List α → List (Int × α) → Option (List α)
  | H, [] => some H
  | H, (i, a) :: rest =>
    if 0 ≤ i ∧ i.toNat < H.length then
      scatter_add_inplace (H.set i.toNat (H.getD i.toNat 0 + a)) rest
    else none

/-- The mask-and-flatten step of ba.py safe_scatter_add_mat_inplace (line 86-87):
the mask is only (ii >= 0) & (jj >= 0) — there is no upper-bound check. -/
def mat_inplace_pairs {α : Type} : List α → List Int → List Int → Nat → List (Int × α)
  | a :: A, i :: is, j :: js, M =>
    let rest := mat_inplace_pairs A is js M
    if 0 ≤ i ∧ 0 ≤ j then (i * M + j, a) :: rest else rest
  | _, _, _, _ => []

/-- ba.py safe_scatter_add_mat_inplace: filter only negative indices, then
Tensor.scatter_add_ into H at flat indices ii * M + jj. -/
def safe_scatter_add_mat_inplace {α : Type} [Add α] [Zero α]
    (H : List α) (data : List α) (ii jj : List Int) (M : Nat) : Option (List α) :=
  scatter_add_inplace H (mat_inplace_pairs data ii jj M)

/-- The mask step of ba.py safe_scatter_add_vec_inplace (line 91-92):
the mask is only ii >= 0. -/
def vec_inplace_pairs {α : Type} : List α → List Int → List (Int × α)
  | a :: A, i :: is =>
    let rest := vec_inplace_pairs A is
    if 0 ≤ i then (i, a) :: rest else rest
  | _, _ => []

/-- ba.py safe_scatter_add_vec_inplace: filter only negative indices, then
Tensor.scatter_add_ into b. -/
def safe_scatter_add_vec_inplace {α : Type} [Add α] [Zero α]
    (b : List α) (data : List α) (ii : List Int) : Option (List α) :=
  scatter_add_inplace b (vec_inplace_pairs data ii)

/-- Restriction of an edge-block triple (A, ii, jj) to the entries whose pair of
indices is in range — the edge set "with those entries removed". -/
def mat_in_range_edges {α : Type} : List α → List Int → List Int → Nat → Nat →
    List α × List Int × List Int
  | a :: A, i :: is, j :: js, n, m =>
    let rest := mat_in_range_edges A is js n m
    if 0 ≤ i ∧ 0 ≤ j ∧ i < (n : Int) ∧ j < (m : Int) then
      (a :: rest.1, i :: rest.2.1, j :: rest.2.2)
    else rest
  | _, _, _, _, _ => ([], [], [])

/-- Restriction of a vector-block pair (b, ii) to the entries whose index is in
range. -/
def vec_in_range_edges {α : Type} : List α → List Int → Nat → List α × List Int
  | a :: A, i :: is, n =>
    let rest := vec_in_range_edges A is n
    if 0 ≤ i ∧ i < (n : Int) then (a :: rest.1, i :: rest.2) else rest
  | _, _, _ => ([], [])

/-- Restriction of an edge-block triple to the entries whose indices are both
non-negative (what the in-place variant actually drops). -/
def mat_nonneg_edges {α : Type} : List α → List Int → List Int →
    List α × List Int × List Int
  | a :: A, i :: is, j :: js =>
    let rest := mat_nonneg_edges A is js
    if 0 ≤ i ∧ 0 ≤ j then (a :: rest.1, i :: rest.2.1, j :: rest.2.2) else rest
  | _, _, _ => ([], [], [])

/-- Restriction of a vector-block pair to the entries with non-negative index. -/
def vec_nonneg_edges {α : Type} : List α → List Int →
    List α × List Int
  | a :: A, i :: is =>
    let rest := vec_nonneg_edges A is
    if 0 ≤ i then (a :: rest.1, i :: rest.2) else rest
  | _, _ => ([], [])

/-- Python slice assignment xs[:t1] = new ; every call site passes a new list of
length exactly t1. -/
def slice_assign {α : Type} (xs : List α) (t1 : Nat) (new : List α) : List α :=
  new.take t1 ++ xs.drop t1

/-- ba.py additive_retr: disps + scatter_sum(dz, ii, dim=1, dim_size=disps.shape[1]).
The per-frame "pixel map" values live in a generic additive type. -/
def additive_retr {α : Type} [Add α] [Zero α] (disps dz : List α) (ii : List Int) : List α :=
  List.zipWith (fun d z => d + z) disps (scatter_sum (ii.zip dz) disps.length)

/-- The shared arrays of the keyframe store that the BA engine mutates in place:
poses (lietorch group elements, abstracted as P), per-frame disparity maps
(generic additive α), per-frame prior scales and shifts (ℚ). -/
structure DepthVideoState (P α : Type) where
  poses : List P
  disps : List α
  scales : List ℚ
  shifts : List ℚ
deriving DecidableEq

/-- The pose write-back shared verbatim by MoBA (ba.py 352-357), BA (451-456) and
BA_prior (627-633): slice the window [0, t1), split at fixedp = max(t0, 1),
retract only the tail with the solver update dx, reassemble, and assign
all_poses[:t1].  The retraction operator of the lietorch pose type is a
parameter. -/
def pose_writeback {P Δ : Type} (retr : P → Δ → P)
    (all_poses : List P) (t0 t1 : Nat) (dx : List Δ) : List P :=
  let poses := all_poses.take t1
  let fixedp := max t0 1
  let poses1 := poses.take fixedp
  let poses2 := poses.drop fixedp
  slice_assign all_poses t1 (poses1 ++ List.zipWith retr poses2 dx)

/-- ba.py MoBA effect on the shared state: only all_poses[:t1] is assigned. -/
def MoBA_update {P α Δ : Type} (retr : P → Δ → P) (t0 t1 : Nat) (dx : List Δ)
    (s : DepthVideoState P α) : DepthVideoState P α :=
  { s with poses := pose_writeback retr s.poses t0 t1 dx }

/-- ba.py BA effect on the shared state (lines 440-457): with structure_only only
all_disps[:t1] is assigned, otherwise all_poses[:t1] and all_disps[:t1]; kx =
torch.unique(ii) are the solved structure nodes and dz the structure update. -/
def BA_update {P α Δ : Type} [Add α] [Zero α] (retr : P → Δ → P)
    (structure_only : Bool) (t0 t1 : Nat) (kx : List Int) (dx : List Δ) (dz : List α)
    (s : DepthVideoState P α) : DepthVideoState P α :=
  if structure_only then
    { s with disps := slice_assign s.disps t1 (additive_retr (s.disps.take t1) dz kx) }
  else
    { s with
      poses := pose_writeback retr s.poses t0 t1 dx,
      disps := slice_assign s.disps t1 (additive_retr (s.disps.take t1) dz kx) }

/-- ba.py BA_prior effect on the shared state (lines 632-636): poses,
disparities, scales and shifts, all on [0, t1). -/
def BA_prior_update {P α Δ : Type} [Add α] [Zero α] (retr : P → Δ → P)
    (t0 t1 : Nat) (kx : List Int) (dx : List Δ) (dz : List α) (ds dO : List ℚ)
    (s : DepthVideoState P α) : DepthVideoState P α :=
  { s with
    poses := pose_writeback retr s.poses t0 t1 dx,
    disps := slice_assign s.disps t1 (additive_retr (s.disps.take t1) dz kx),
    scales := slice_assign s.scales t1 (additive_retr (s.scales.take t1) ds kx),
    shifts := slice_assign s.shifts t1 (additive_retr (s.shifts.take t1) dO kx) }

/-- ba.py BA_prior_no_motion effect on the shared state (lines 737-740):
disparities, scales and shifts scattered over the expanded node set kx_exp;
all_poses is never assigned. -/
def BA_prior_no_motion_update {P α : Type} [Add α] [Zero α]
    (t1 : Nat) (kx_exp : List Int) (dz : List α) (ds dO : List ℚ)
    (s : DepthVideoState P α) : DepthVideoState P α :=
  { s with
    disps := slice_assign s.disps t1 (additive_retr (s.disps.take t1) dz kx_exp),
    scales := slice_assign s.scales t1 (additive_retr (s.scales.take t1) ds kx_exp),
    shifts := slice_assign s.shifts t1 (additive_retr (s.shifts.take t1) dO kx_exp) }

/-- Tensor.clamp(min=lo) is out of place: it returns the clamped copy and leaves
the receiver unchanged (the in-place variant would be clamp_). -/
def tensor_clamp (xs : List ℚ) (lo : ℚ) : List ℚ :=
  xs.map fun x => max lo x

/-- The iteration loop of ba.py bundle_adjustment (lines 186-190): run the
selected variant, then evaluate disps.clamp(min=0.001) — whose result the code
does not assign to anything, so the state passed on is s1, not the clamp. -/
def ba_loop {σ : Type} (ba_function : σ → σ) (getDisps : σ → List ℚ) : Nat → σ → σ
  | 0, s => s
  | Nat.succ k, s =>
    let s1 := ba_function s
    let _discarded := tensor_clamp (getDisps s1) (1 / 1000)
    ba_loop ba_function getDisps k s1

/-- Python truth value of a bool summed as an int. -/
def b2i (b : Bool) : Nat := if b then 1 else 0

/-- ba.py bundle_adjustment (lines 133-197): the assertion checks, then the
iteration loop.  The variant dispatch is abstracted into ba_function — one of
the *_update functions above applied to the shared state — and getDisps reads
the disparity tensor that line 189 clamps. -/
def bundle_adjustment {σ : Type} (structure_only motion_only scale_prior : Bool)
    (disps_sens : Option (List ℚ)) (ba_function : σ → σ) (getDisps : σ → List ℚ)
    (iters : Nat) (s : σ) : Except String σ :=
  if b2i structure_only + b2i motion_only > 1 then
    Except.error "You can either optimize only motion or structure or both!"
  else if scale_prior && disps_sens.isNone then
    Except.error "You need to provide prior disparities to optimize with scales!"
  else
    Except.ok (ba_loop ba_function getDisps iters s)

/-- Caller-side semantics of bundle_adjustment: a raised assertion leaves the
shared tensors exactly as they were, because both asserts run before any
mutation of the state. -/
def run_bundle_adjustment {σ : Type} (structure_only motion_only scale_prior : Bool)
    (disps_sens : Option (List ℚ)) (ba_function : σ → σ) (getDisps : σ → List ℚ)
    (iters : Nat) (s : σ) : σ :=
  match bundle_adjustment structure_only motion_only scale_prior disps_sens
      ba_function getDisps iters s with
  | Except.ok s2 => s2
  | Except.error _ => s

/-- Solver output values: a finite number, NaN, or an infinity.  Only the
NaN / finite distinction drives the control flow of ba.py, so one constructor
for the infinities suffices. -/
inductive FVal where
  | fin : ℚ → FVal
  | nan : FVal
  | inf : FVal
deriving DecidableEq

/-- torch.isnan(dx).any() -/
def isnan_any (xs : List FVal) : Bool :=
  xs.any fun v => v = FVal.nan

/-- A value is finite iff it is neither NaN nor an infinity. -/
def is_finite_val : FVal → Bool
  | FVal.fin _ => true
  | _ => false

/-- torch.zeros_like -/
def torch_zeros_like (xs : List FVal) : List FVal :=
  xs.map fun _ => FVal.fin 0

/-- ba.py MoBA lines 341-349: take the Cholesky solution; if it contains NaN
retry with the LU solver; if that still contains NaN use a zero update.  The two
solver outputs are parameters because CholeskySolver and LUSolver live in
geom/chol.py, outside the sources at hand. -/
def moba_solve_dx (dx_chol dx_lu : List FVal) : List FVal :=
  if isnan_any dx_chol then
    if isnan_any dx_lu then torch_zeros_like dx_lu else dx_lu
  else dx_chol

/-- Elementwise sum of two equally-shaped tensors. -/
def vadd (xs ys : List ℚ) : List ℚ := List.zipWith (fun a b => a + b) xs ys

/-- Elementwise difference of two equally-shaped tensors. -/
def vsub (xs ys : List ℚ) : List ℚ := List.zipWith (fun a b => a - b) xs ys

/-- Elementwise product of two equally-shaped tensors. -/
def vmul (xs ys : List ℚ) : List ℚ := List.zipWith (fun a b => a * b) xs ys

/-- Broadcast addition of a scalar. -/
def vadd_const (xs : List ℚ) (c : ℚ) : List ℚ := xs.map fun x => x + c

/-- ba.py BA lines 429-438: the damping / prior coupling applied to the
structure diagonal C and structure rhs w, flattened over nodes and pixels.  With
a prior, m = (disps_sens[:, kx] > 0).int(), C = C + alpha*m + (1-m)*eta + 1e-7
and w = w - m*alpha*(disps[:, kx] - disps_sens[:, kx]); without a prior,
C = C + eta + 1e-7 and w is untouched. -/
def BA_damp_C_w (C w eta disps_kx : List ℚ) (disps_sens_kx : Option (List ℚ))
    (alpha : ℚ) : List ℚ × List ℚ :=
  match disps_sens_kx with
  | some ds =>
    let m : List ℚ := ds.map fun x => if 0 < x then 1 else 0
    (vadd_const (vadd (vadd C (m.map fun x => alpha * x)) (vmul (m.map fun x => 1 - x) eta))
       (1 / 10000000),
     vsub w (vmul (m.map fun x => alpha * x) (vsub disps_kx ds)))
  | none => (vadd_const (vadd C eta) (1 / 10000000), w)

/-- ba.py BA, steps 2-4, with everything the prior flag cannot influence held
abstract: the pose-block system (H, E, v) is fixed inside the solver closure —
only the damped (C, w) pair differs between a run with and without a prior —
and the solver (schur_block_solve, from geom/chol.py) maps it to the pose and
structure updates, which are written back by BA_update. -/
def BA_full {P α Δ : Type} [Add α] [Zero α] (retr : P → Δ → P)
    (solver : List ℚ × List ℚ → List Δ × List α) (structure_only : Bool)
    (t0 t1 : Nat) (kx : List Int) (C w eta disps_kx : List ℚ)
    (disps_sens_kx : Option (List ℚ)) (alpha : ℚ)
    (s : DepthVideoState P α) : DepthVideoState P α :=
  let Cw := BA_damp_C_w C w eta disps_kx disps_sens_kx alpha
  let dxdz := solver Cw
  BA_update retr structure_only t0 t1 kx dxdz.1 dxdz.2 s

/-- torch.unique: the sorted list of distinct values. -/
def torch_unique (xs : List Int) : List Int :=
  List.insertionSort (fun a b => a ≤ b) xs.dedup

/-- torch.arange(t0, t1) as Int values. -/
def torch_arange (t0 t1 : Nat) : List Int :=
  (List.range (t1 - t0)).map fun k => ((t0 + k : Nat) : Int)

/-- ba.py line 681: kx = torch.unique(ii), the nodes that appear in some edge. -/
def kx_of (ii : List Int) : List Int := torch_unique ii

/-- ba.py lines 682-683: kx_exp = torch.unique(cat([arange(t0, t1), ii])), the
node set expanded with every frame of the window. -/
def kx_exp_of (ii : List Int) (t0 t1 : Nat) : List Int :=
  torch_unique (torch_arange t0 t1 ++ ii)

/-- ba.py line 696: non_empty_nodes = torch.isin(kx_exp, kx). -/
def non_empty_nodes_of (ii : List Int) (t0 t1 : Nat) : List Bool :=
  (kx_exp_of ii t0 t1).map fun x => decide (x ∈ kx_of ii)

/-- Boolean-mask assignment base[mask] = vals (ba.py lines 699-700): positions
whose mask is true take the values of vals in order, the rest keep base. -/
def mask_assign {α : Type} : List α → List Bool → List α → List α
  | b :: bs, m :: ms, vals =>
    if m then
      match vals with
      | v :: vs => v :: mask_assign bs ms vs
      | [] => b :: mask_assign bs ms []
    else b :: mask_assign bs ms vals
  | bs, _, _ => bs

/-- ba.py lines 697-700: a zero buffer over the expanded node set, with the
assembled per-node blocks of the contributing nodes masked in — absent nodes
keep their zero padding.  The same construction is used for C_exp and w_exp. -/
def exp_pad_of {α : Type} [Zero α] (ii : List Int) (t0 t1 : Nat) (C : List α) : List α :=
  mask_assign (List.replicate (kx_exp_of ii t0 t1).length 0) (non_empty_nodes_of ii t0 t1) C

/-- slam.py SLAM.get_ram_usage / ram_safeguard_backend outcome: the backend
after the call (abstracted to an Option over an identity), together with what
happened during the call. -/
structure SafeguardStep where
  backend : Option Nat
  deleted : Bool
  constructed : Bool
deriving DecidableEq

/-- slam.py SLAM.ram_safeguard_backend (lines 262-279): if used_mem > max_ram
and a backend exists, delete it; then, if no backend exists and
used_mem <= min_ram, construct a fresh one. -/
def ram_safeguard_backend (backend0 : Option Nat) (used_mem max_ram min_ram : ℚ)
    (fresh : Nat) : SafeguardStep :=
  let del := decide (max_ram < used_mem) && backend0.isSome
  let b1 : Option Nat := if del then none else backend0
  let con := b1.isNone && decide (used_mem ≤ min_ram)
  let b2 : Option Nat := if con then some fresh else b1
  { backend := b2, deleted := del, constructed := con }

/-- slam.py SLAM.global_ba (lines 286-295): after the safeguard, the BA cycle
runs iff a backend instance exists. -/
def global_ba_runs_ba (step : SafeguardStep) : Bool :=
  step.backend.isSome

/-- The configuration fields that SLAM.sanity_checks reads.  optimize_scales and
opt_intr mirror the DepthVideo flags derived from the config. -/
structure SLAMConfig where
  mode : String
  optimize_scales : Bool
  opt_intr : Bool
  run_mapping : Bool
  use_non_keyframes : Bool
  refinement_iters : Nat
deriving DecidableEq

/-- slam.py SLAM.sanity_checks (lines 142-163): stereo mode raises
NotImplementedError; prgbd mode with both scale/shift and intrinsics
optimization fails an assert; mapping with non-keyframes requires refinement
iterations.  The first failing check aborts. -/
def sanity_checks (cfg : SLAMConfig) : Except String Unit :=
  if cfg.mode = "stereo" then
    Except.error "Stereo mode not supported yet!"
  else if cfg.mode = "prgbd" ∧ (cfg.optimize_scales ∧ cfg.opt_intr) then
    Except.error "Optimizing poses, disparities, scale, shift and intrinsics together is ambiguous!"
  else if cfg.run_mapping ∧ (cfg.use_non_keyframes ∧ cfg.refinement_iters = 0) then
    Except.error "Using non-keyframes requires refining the map after tracking!"
  else
    Except.ok ()

/-- A constructed SLAM system; worker processes are counted so that "no worker
was launched" is visible in the model. -/
structure SLAMSystem where
  cfg : SLAMConfig
  workers_started : Nat
deriving DecidableEq

/-- slam.py SLAM.__init__ (ending at line 136): building the components starts
no process, and sanity_checks runs before __init__ returns — an exception
aborts construction. -/
def SLAM_init (cfg : SLAMConfig) : Except String SLAMSystem :=
  match sanity_checks cfg with
  | Except.error e => Except.error e
  | Except.ok _ => Except.ok { cfg := cfg, workers_started := 0 }

/-- slam.py SLAM.run (lines 614-635): the only place worker processes are
started — six of them. -/
def SLAM_run (s : SLAMSystem) : SLAMSystem :=
  { s with workers_started := s.workers_started + 6 }

/-- Agreement of two shared states at frame index i: all four arrays are
unchanged there. -/
def state_untouched_at {P α : Type} (s2 s : DepthVideoState P α) (i : Nat) : Prop :=
  s2.poses[i]? = s.poses[i]? ∧ s2.disps[i]? = s.disps[i]?
    ∧ s2.scales[i]? = s.scales[i]? ∧ s2.shifts[i]? = s.shifts[i]?

lemma scatter_sum_length {α : Type} [Add α] [Zero α] (ps : List (Int × α)) (n : Nat) :
    (scatter_sum ps n).length = n := by
  induction ps with
  | nil => simp [scatter_sum]
  | cons p ps ih =>
    obtain ⟨i, a⟩ := p
    simp only [scatter_sum]
    split
    · simpa using ih
    · exact ih

lemma additive_retr_length {α : Type} [Add α] [Zero α] (d dz : List α) (ii : List Int) :
    (additive_retr d dz ii).length = d.length := by
  simp [additive_retr, List.length_zipWith, scatter_sum_length]

lemma slice_assign_getElem_lt {α : Type} (xs new : List α) (t1 i : Nat)
    (h1 : t1 ≤ new.length) (h2 : i < t1) :
    (slice_assign xs t1 new)[i]? = new[i]? := by
  unfold slice_assign
  rw [List.getElem?_append_left (by simp [List.length_take]; omega),
    List.getElem?_take_of_lt h2]

lemma slice_assign_getElem_ge {α : Type} (xs new : List α) (t1 i : Nat)
    (h1 : t1 ≤ new.length) (h2 : t1 ≤ i) :
    (slice_assign xs t1 new)[i]? = xs[i]? := by
  unfold slice_assign
  rw [List.getElem?_append_right (by simp [List.length_take]; omega), List.getElem?_drop]
  congr 1
  simp [List.length_take]
  omega

lemma mat_scatter_pairs_in_range {α : Type} (A : List α) (ii jj : List Int) (n m : Nat) :
    mat_scatter_pairs (mat_in_range_edges A ii jj n m).1 (mat_in_range_edges A ii jj n m).2.1
      (mat_in_range_edges A ii jj n m).2.2 n m = mat_scatter_pairs A ii jj n m := by
  induction A generalizing ii jj with
  | nil => cases ii <;> cases jj <;> simp [mat_in_range_edges, mat_scatter_pairs]
  | cons a A ih =>
    cases ii with
    | nil => simp [mat_in_range_edges, mat_scatter_pairs]
    | cons i is =>
      cases jj with
      | nil => simp [mat_in_range_edges, mat_scatter_pairs]
      | cons j js =>
        by_cases h : 0 ≤ i ∧ 0 ≤ j ∧ i < (n : Int) ∧ j < (m : Int)
        · simp [mat_in_range_edges, mat_scatter_pairs, h, ih]
        · simp [mat_in_range_edges, mat_scatter_pairs, h, ih]

lemma vec_scatter_pairs_in_range {α : Type} (b : List α) (ii : List Int) (n : Nat) :
    vec_scatter_pairs (vec_in_range_edges b ii n).1 (vec_in_range_edges b ii n).2 n
      = vec_scatter_pairs b ii n := by
  induction b generalizing ii with
  | nil => cases ii <;> simp [vec_in_range_edges, vec_scatter_pairs]
  | cons a A ih =>
    cases ii with
    | nil => simp [vec_in_range_edges, vec_scatter_pairs]
    | cons i is =>
      by_cases h : 0 ≤ i ∧ i < (n : Int)
      · simp [vec_in_range_edges, vec_scatter_pairs, h, ih]
      · simp [vec_in_range_edges, vec_scatter_pairs, h, ih]

lemma mat_inplace_pairs_nonneg {α : Type} (A : List α) (ii jj : List Int) (M : Nat) :
    mat_inplace_pairs (mat_nonneg_edges A ii jj).1 (mat_nonneg_edges A ii jj).2.1
      (mat_nonneg_edges A ii jj).2.2 M = mat_inplace_pairs A ii jj M := by
  induction A generalizing ii jj with
  | nil => cases ii <;> cases jj <;> simp [mat_nonneg_edges, mat_inplace_pairs]
  | cons a A ih =>
    cases ii with
    | nil => simp [mat_nonneg_edges, mat_inplace_pairs]
    | cons i is =>
      cases jj with
      | nil => simp [mat_nonneg_edges, mat_inplace_pairs]
      | cons j js =>
        by_cases h : 0 ≤ i ∧ 0 ≤ j
        · simp [mat_nonneg_edges, mat_inplace_pairs, h, ih]
        · simp [mat_nonneg_edges, mat_inplace_pairs, h, ih]

lemma vec_inplace_pairs_nonneg {α : Type} (b : List α) (ii : List Int) :
    vec_inplace_pairs (vec_nonneg_edges b ii).1 (vec_nonneg_edges b ii).2
      = vec_inplace_pairs b ii := by
  induction b generalizing ii with
  | nil => cases ii <;> simp [vec_nonneg_edges, vec_inplace_pairs]
  | cons a A ih =>
    cases ii with
    | nil => simp [vec_nonneg_edges, vec_inplace_pairs]
    | cons i is =>
      by_cases h : 0 ≤ i
      · simp [vec_nonneg_edges, vec_inplace_pairs, h, ih]
      · simp [vec_nonneg_edges, vec_inplace_pairs, h, ih]

/-- C2, counterexample: the in-place Sparse Accumulator primitives do not drop
an index that is >= the node count.  With M = 2 nodes (buffer of 2*2 blocks),
the edge (ii, jj) = (0, 2) has jj out of range, yet its block 5 is accumulated
at flat position 0*2+2 = 2 — the block (1,0) of the matrix — instead of being
dropped, so the result differs from the run with that entry removed; and the
in-place vector variant errors (rather than drops) on index 5 >= 2. -/
theorem C2_counterexample_inplace_not_dropped :
    safe_scatter_add_mat_inplace ([0,0,0,0] : List ℤ) [5] [0] [2] 2 = some [0,0,5,0]
    ∧ safe_scatter_add_mat_inplace ([0,0,0,0] : List ℤ) ([] : List ℤ) [] [] 2
        = some [0,0,0,0]
    ∧ some ([0,0,5,0] : List ℤ) ≠ some [0,0,0,0]
    ∧ safe_scatter_add_vec_inplace ([0,0] : List ℤ) [7] [5] = none := by
  refine ⟨by decide, by decide, by decide, by decide⟩

/-- C2, amended: the out-of-place scatter-add primitives drop every contribution
whose index is out of range (< 0 or >= the node count) and coincide with the run
on the edge set with those entries removed; the in-place variants drop only the
contributions with a negative index and coincide with the run on the edge set
with the negative-index entries removed. -/
theorem C2_amended_scatter_add_drops {α : Type} [Add α] [Zero α]
    (A b data datav H bv : List α) (ii jj kk ll mm : List Int) (n m M : Nat) :
    safe_scatter_add_mat A ii jj n m
      = safe_scatter_add_mat (mat_in_range_edges A ii jj n m).1
          (mat_in_range_edges A ii jj n m).2.1 (mat_in_range_edges A ii jj n m).2.2 n m
    ∧ safe_scatter_add_vec b kk n
      = safe_scatter_add_vec (vec_in_range_edges b kk n).1 (vec_in_range_edges b kk n).2 n
    ∧ safe_scatter_add_mat_inplace H data ll mm M
      = safe_scatter_add_mat_inplace H (mat_nonneg_edges data ll mm).1
          (mat_nonneg_edges data ll mm).2.1 (mat_nonneg_edges data ll mm).2.2 M
    ∧ safe_scatter_add_vec_inplace bv datav kk
      = safe_scatter_add_vec_inplace bv (vec_nonneg_edges datav kk).1
          (vec_nonneg_edges datav kk).2 := by
  refine ⟨?_, ?_, ?_, ?_⟩
  · unfold safe_scatter_add_mat
    rw [mat_scatter_pairs_in_range]
  · unfold safe_scatter_add_vec
    rw [vec_scatter_pairs_in_range]
  · unfold safe_scatter_add_mat_inplace
    rw [mat_inplace_pairs_nonneg]
  · unfold safe_scatter_add_vec_inplace
    rw [vec_inplace_pairs_nonneg]

lemma isnan_any_zeros (xs : List FVal) : isnan_any (torch_zeros_like xs) = false := by
  simp [isnan_any, torch_zeros_like, List.any_map]

/-- C3, counterexample: MoBA retries the solve only when the Cholesky update
contains NaN (torch.isnan), not when it contains any non-finite value: an update
containing an infinity but no NaN triggers no LU retry and no zero update — it
is applied as is, so a non-finite update reaches the shared poses. -/
theorem C3_counterexample_inf_not_caught :
    moba_solve_dx [FVal.inf] [FVal.fin 0] = [FVal.inf]
    ∧ isnan_any [FVal.inf] = false
    ∧ is_finite_val FVal.inf = false := by
  refine ⟨by decide, by decide, by decide⟩

/-- C3, amended: the fallback chain is guarded by NaN detection: if the Cholesky
update contains NaN the system is re-solved with LU, and if that update also
contains NaN a zero update is used; the applied update therefore never contains
NaN (though it may contain infinities), it is always one of the Cholesky
solution, the LU solution or the zero update, and the chain never raises. -/
theorem C3_amended_nan_fallback (dx_chol dx_lu : List FVal) :
    isnan_any (moba_solve_dx dx_chol dx_lu) = false
    ∧ (moba_solve_dx dx_chol dx_lu = dx_chol ∨ moba_solve_dx dx_chol dx_lu = dx_lu
        ∨ moba_solve_dx dx_chol dx_lu = torch_zeros_like dx_lu) := by
  unfold moba_solve_dx
  by_cases h1 : isnan_any dx_chol = true
  · by_cases h2 : isnan_any dx_lu = true
    · simp [h1, h2, isnan_any_zeros]
    · simp only [Bool.not_eq_true] at h2
      simp [h1, h2]
  · simp only [Bool.not_eq_true] at h1
    simp [h1]

/-- C1, code bug: ba.py line 189 calls disps.clamp(min=0.001) — the out-of-place
Tensor.clamp — and discards the result, so the loop never re-establishes the
positive floor.  Evaluating the embedded bundle_adjustment on a motion-only call
(1 iteration, window (1, 2), zero pose update) over a disparity map containing
-1 returns the map unchanged: -1 is still present, below the promised 0.001
floor and negative. -/
theorem C1_clamp_result_discarded :
    (run_bundle_adjustment false true false none
        (MoBA_update (fun (p d : ℤ) => p + d) 1 2 [0]) (fun s => s.disps) 1
        (⟨[0, 0], [-1, 1], [], []⟩ : DepthVideoState ℤ ℚ)).disps = [-1, 1]
    ∧ ((-1 : ℚ) < 1 / 1000) :=
  ⟨rfl, by norm_num⟩

/-- C8: before each BA cycle the orchestrator samples memory utilization;
whenever it exceeds max_ram while a backend exists the backend is deleted and
the BA cycle is skipped, and a fresh backend is constructed only when no backend
exists and utilization is at most the low-water mark 1/2 (the min_ram default of
ram_safeguard_backend; global_ba passes max_ram only).  The hypothesis
1/2 ≤ max_ram is the hysteresis ordering of the two water marks, satisfied by
the default max_ram_usage = 9/10. -/
theorem C8_ram_safeguard_hysteresis (b0 : Option Nat) (used max_ram : ℚ) (fresh : Nat)
    (hm : 1 / 2 ≤ max_ram) :
    (max_ram < used → b0.isSome = true →
      (ram_safeguard_backend b0 used max_ram (1 / 2) fresh).backend = none
      ∧ (ram_safeguard_backend b0 used max_ram (1 / 2) fresh).deleted = true
      ∧ global_ba_runs_ba (ram_safeguard_backend b0 used max_ram (1 / 2) fresh) = false)
    ∧ ((ram_safeguard_backend b0 used max_ram (1 / 2) fresh).constructed = true →
      b0 = none ∧ used ≤ 1 / 2)
    ∧ (1 / 2 < used →
      (ram_safeguard_backend b0 used max_ram (1 / 2) fresh).constructed = false) := by
  refine ⟨?_, ?_, ?_⟩
  · intro hlt hsome
    have h2 : ¬ used ≤ 1 / 2 := fun hle => absurd hlt (not_lt.mpr (hle.trans hm))
    cases b0 with
    | none => simp at hsome
    | some k =>
      simp [ram_safeguard_backend, global_ba_runs_ba, hlt, h2]
      linarith [not_le.mp h2]
  · intro hcon
    by_cases h2 : used ≤ 1 / 2
    · by_cases h1 : max_ram < used
      · exact absurd h1 (not_lt.mpr (h2.trans hm))
      · cases b0 with
        | none => exact ⟨rfl, h2⟩
        | some k =>
          exfalso
          simp [ram_safeguard_backend, h1, h2] at hcon
    · exfalso
      simp [ram_safeguard_backend, h2] at hcon
      exact h2 (by linarith [hcon.2])
  · intro hlt2
    have h2 : ¬ used ≤ 1 / 2 := not_le.mpr hlt2
    simp [ram_safeguard_backend, h2]
    intro _
    linarith [not_le.mp h2]

/-- C8 witness: the default water marks 9/10 and 1/2, utilization 1 (100%), a
live backend: it is deleted, the cycle is skipped, nothing is reconstructed. -/
theorem C8_ram_safeguard_hysteresis_witness :
    (1 / 2 : ℚ) ≤ 9 / 10 ∧ (9 / 10 : ℚ) < 1 ∧ (some 0 : Option Nat).isSome = true
    ∧ (ram_safeguard_backend (some 0) 1 (9 / 10) (1 / 2) 7).backend = none
    ∧ (ram_safeguard_backend (some 0) 1 (9 / 10) (1 / 2) 7).deleted = true
    ∧ global_ba_runs_ba (ram_safeguard_backend (some 0) 1 (9 / 10) (1 / 2) 7) = false := by
  have h := C8_ram_safeguard_hysteresis (some 0) 1 (9 / 10) 7 (by norm_num)
  have h1 := h.1 (by norm_num) rfl
  exact ⟨by norm_num, by norm_num, rfl, h1.1, h1.2.1, h1.2.2⟩

/-- C9: configuration conflicts are fatal at construction time: stereo mode
aborts SLAM.__init__ (with the NotImplementedError message), prgbd mode with
both scale/shift and intrinsics optimization aborts it (failed assert), and a
successfully constructed system has started no worker process — workers are
only started later, by SLAM.run. -/
theorem C9_config_conflicts_fatal (cfg : SLAMConfig) :
    (cfg.mode = "stereo" →
      SLAM_init cfg = Except.error "Stereo mode not supported yet!")
    ∧ (cfg.mode = "prgbd" → cfg.optimize_scales = true → cfg.opt_intr = true →
      ∃ e, SLAM_init cfg = Except.error e)
    ∧ (∀ s, SLAM_init cfg = Except.ok s → s.workers_started = 0) := by
  refine ⟨?_, ?_, ?_⟩
  · intro h
    simp [SLAM_init, sanity_checks, h]
  · intro h hs hi
    exact ⟨"Optimizing poses, disparities, scale, shift and intrinsics together is ambiguous!",
      by simp [SLAM_init, sanity_checks, h, hs, hi]⟩
  · intro s hok
    unfold SLAM_init at hok
    cases hsc : sanity_checks cfg with
    | error e => rw [hsc] at hok; cases hok
    | ok u =>
      rw [hsc] at hok
      cases hok
      rfl

/-- C9 witness: a stereo config and a conflicting prgbd config both fail
construction. -/
theorem C9_config_conflicts_fatal_witness :
    SLAM_init ⟨"stereo", false, false, false, false, 0⟩
      = Except.error "Stereo mode not supported yet!"
    ∧ (∃ e, SLAM_init ⟨"prgbd", true, true, false, false, 0⟩ = Except.error e) :=
  ⟨(C9_config_conflicts_fatal _).1 rfl, (C9_config_conflicts_fatal _).2.1 rfl rfl rfl⟩

/-- C10: ba.py bundle_adjustment fails its assert when structure_only and
motion_only are both set, and when scale_prior is set without prior disparities;
both asserts run before the iteration loop, so the shared state is returned
unchanged. -/
theorem C10_bundle_adjustment_asserts {σ : Type}
    (structure_only motion_only scale_prior : Bool) (disps_sens : Option (List ℚ))
    (f : σ → σ) (g : σ → List ℚ) (iters : Nat) (s : σ)
    (h : (structure_only = true ∧ motion_only = true)
        ∨ (scale_prior = true ∧ disps_sens = none)) :
    (∃ e, bundle_adjustment structure_only motion_only scale_prior disps_sens f g iters s
        = Except.error e)
    ∧ run_bundle_adjustment structure_only motion_only scale_prior disps_sens f g iters s
        = s := by
  rcases h with ⟨h1, h2⟩ | ⟨h1, h2⟩
  · subst h1; subst h2
    exact ⟨⟨_, rfl⟩, rfl⟩
  · subst h1; subst h2
    cases structure_only <;> cases motion_only <;> exact ⟨⟨_, rfl⟩, rfl⟩

/-- C10 witness: both flags set, one iteration requested, state 0: the call
errors and the state is unchanged. -/
theorem C10_bundle_adjustment_asserts_witness :
    ((true = true ∧ true = true) ∨ (false = true ∧ (none : Option (List ℚ)) = none))
    ∧ (∃ e, bundle_adjustment true true false (none : Option (List ℚ)) (fun s : Nat => s)
        (fun _ => []) 3 0 = Except.error e)
    ∧ run_bundle_adjustment true true false (none : Option (List ℚ)) (fun s : Nat => s)
        (fun _ => []) 3 0 = 0 := by
  have h := C10_bundle_adjustment_asserts true true false (none : Option (List ℚ))
    (fun s : Nat => s) (fun _ => []) 3 0 (Or.inl ⟨rfl, rfl⟩)
  exact ⟨Or.inl ⟨rfl, rfl⟩, h.1, h.2⟩

lemma pose_writeback_new_length {P Δ : Type} (retr : P → Δ → P)
    (poses : List P) (t0 t1 : Nat) (dx : List Δ)
    (hp : t1 ≤ poses.length) (hf : max t0 1 ≤ t1) (hdx : t1 - max t0 1 ≤ dx.length) :
    ((poses.take t1).take (max t0 1)
      ++ List.zipWith retr ((poses.take t1).drop (max t0 1)) dx).length = t1 := by
  simp [List.length_take, List.length_drop, List.length_zipWith]
  omega

lemma pose_writeback_getElem_fixed {P Δ : Type} (retr : P → Δ → P)
    (poses : List P) (t0 t1 : Nat) (dx : List Δ) (i : Nat)
    (hp : t1 ≤ poses.length) (hf : max t0 1 ≤ t1) (hdx : t1 - max t0 1 ≤ dx.length)
    (hi : i < max t0 1 ∨ t1 ≤ i) :
    (pose_writeback retr poses t0 t1 dx)[i]? = poses[i]? := by
  have hlen := pose_writeback_new_length retr poses t0 t1 dx hp hf hdx
  simp only [pose_writeback]
  rcases hi with hi | hi
  · rw [slice_assign_getElem_lt _ _ _ _ (le_of_eq hlen.symm) (lt_of_lt_of_le hi hf)]
    rw [List.getElem?_append_left (by simp [List.length_take]; omega)]
    rw [List.getElem?_take_of_lt hi, List.getElem?_take_of_lt (lt_of_lt_of_le hi hf)]
  · rw [slice_assign_getElem_ge _ _ _ _ (le_of_eq hlen.symm) hi]

lemma pose_writeback_getElem_active {P Δ : Type} (retr : P → Δ → P)
    (poses : List P) (t0 t1 : Nat) (dx : List Δ) (i : Nat)
    (hp : t1 ≤ poses.length) (hf : max t0 1 ≤ t1) (hdx : t1 - max t0 1 ≤ dx.length)
    (hi1 : max t0 1 ≤ i) (hi2 : i < t1) :
    ∃ p δ, poses[i]? = some p ∧ dx[i - max t0 1]? = some δ ∧
      (pose_writeback retr poses t0 t1 dx)[i]? = some (retr p δ) := by
  have hlen := pose_writeback_new_length retr poses t0 t1 dx hp hf hdx
  have hip : i < poses.length := lt_of_lt_of_le hi2 hp
  have hid : i - max t0 1 < dx.length := by omega
  refine ⟨poses[i], dx[i - max t0 1], List.getElem?_eq_getElem hip,
    List.getElem?_eq_getElem hid, ?_⟩
  simp only [pose_writeback]
  rw [slice_assign_getElem_lt _ _ _ _ (le_of_eq hlen.symm) hi2]
  rw [List.getElem?_append_right (by simp [List.length_take]; omega)]
  rw [List.getElem?_zipWith]
  have e1 : ((poses.take t1).take (max t0 1)).length = max t0 1 := by
    simp [List.length_take]; omega
  rw [e1, List.getElem?_drop]
  have e2 : max t0 1 + (i - max t0 1) = i := by omega
  rw [e2, List.getElem?_take_of_lt hi2, List.getElem?_eq_getElem hip,
    List.getElem?_eq_getElem hid]


lemma structure_writeback_getElem_ge {α : Type} [Add α] [Zero α]
    (xs : List α) (dz : List α) (kx : List Int) (t1 i : Nat)
    (hx : t1 ≤ xs.length) (hi : t1 ≤ i) :
    (slice_assign xs t1 (additive_retr (xs.take t1) dz kx))[i]? = xs[i]? := by
  refine slice_assign_getElem_ge _ _ _ _ ?_ hi
  rw [additive_retr_length]
  simp [List.length_take]
  exact hx

/-- C4: in every solve variant, poses below max(t0, 1) — in particular pose 0 —
and poses at or beyond t1 are left unchanged, while exactly the poses with index
in [max(t0,1), t1) receive the retraction update retr p δ; the structure-only
variants never touch poses at all. -/
theorem C4_gauge_fixing {P α Δ : Type} [Add α] [Zero α] (retr : P → Δ → P)
    (t0 t1 : Nat) (kx : List Int) (dx : List Δ) (dz : List α) (ds dO : List ℚ)
    (s : DepthVideoState P α)
    (hp : t1 ≤ s.poses.length) (hf : max t0 1 ≤ t1) (hdx : t1 - max t0 1 ≤ dx.length) :
    (∀ i, i < max t0 1 ∨ t1 ≤ i →
      (MoBA_update retr t0 t1 dx s).poses[i]? = s.poses[i]?
      ∧ (BA_update retr false t0 t1 kx dx dz s).poses[i]? = s.poses[i]?
      ∧ (BA_prior_update retr t0 t1 kx dx dz ds dO s).poses[i]? = s.poses[i]?)
    ∧ (∀ i, max t0 1 ≤ i → i < t1 →
      ∃ p δ, s.poses[i]? = some p ∧ dx[i - max t0 1]? = some δ ∧
        (MoBA_update retr t0 t1 dx s).poses[i]? = some (retr p δ)
        ∧ (BA_update retr false t0 t1 kx dx dz s).poses[i]? = some (retr p δ)
        ∧ (BA_prior_update retr t0 t1 kx dx dz ds dO s).poses[i]? = some (retr p δ))
    ∧ (BA_update retr true t0 t1 kx dx dz s).poses = s.poses
    ∧ (BA_prior_no_motion_update t1 kx dz ds dO s).poses = s.poses := by
  refine ⟨?_, ?_, by simp [BA_update], by simp [BA_prior_no_motion_update]⟩
  · intro i hi
    have h := pose_writeback_getElem_fixed retr s.poses t0 t1 dx i hp hf hdx hi
    exact ⟨by simpa [MoBA_update] using h, by simpa [BA_update] using h,
      by simpa [BA_prior_update] using h⟩
  · intro i hi1 hi2
    obtain ⟨p, δ, h1, h2, h3⟩ :=
      pose_writeback_getElem_active retr s.poses t0 t1 dx i hp hf hdx hi1 hi2
    exact ⟨p, δ, h1, h2, by simpa [MoBA_update] using h3, by simpa [BA_update] using h3,
      by simpa [BA_prior_update] using h3⟩

/-- C4 witness: window (0, 2) over two poses — pose 0 is fixed (max(t0,1) = 1),
pose 1 is retracted by the single update entry. -/
theorem C4_gauge_fixing_witness :
    2 ≤ ([10, 20] : List ℤ).length ∧ max 0 1 ≤ 2 ∧ 2 - max 0 1 ≤ ([5] : List ℤ).length
    ∧ (MoBA_update (fun (p d : ℤ) => p + d) 0 2 [5]
        (⟨[10, 20], [0, 0], [], []⟩ : DepthVideoState ℤ ℤ)).poses[0]?
      = (⟨[10, 20], [0, 0], [], []⟩ : DepthVideoState ℤ ℤ).poses[0]?
    ∧ (∃ p δ, (⟨[10, 20], [0, 0], [], []⟩ : DepthVideoState ℤ ℤ).poses[1]? = some p
        ∧ ([5] : List ℤ)[1 - max 0 1]? = some δ
        ∧ (MoBA_update (fun (p d : ℤ) => p + d) 0 2 [5]
            (⟨[10, 20], [0, 0], [], []⟩ : DepthVideoState ℤ ℤ)).poses[1]? = some (p + δ)) := by
  have h := C4_gauge_fixing (fun (p d : ℤ) => p + d) 0 2 ([] : List Int) [5] ([] : List ℤ)
    [] [] (⟨[10, 20], [0, 0], [], []⟩ : DepthVideoState ℤ ℤ) (by decide) (by decide) (by decide)
  refine ⟨by decide, by decide, by decide, (h.1 0 (Or.inl (by decide))).1, ?_⟩
  obtain ⟨p, δ, h1, h2, h3, _, _⟩ := h.2.1 1 (by decide) (by decide)
  exact ⟨p, δ, h1, h2, h3⟩

/-- C5: no solve variant writes any shared array at an index at or beyond t1:
poses, disparities, scales and shifts there are all unchanged. -/
theorem C5_no_write_beyond_t1 {P α Δ : Type} [Add α] [Zero α] (retr : P → Δ → P)
    (t0 t1 : Nat) (kx kx2 : List Int) (dx : List Δ) (dz : List α) (ds dO : List ℚ)
    (s : DepthVideoState P α) (i : Nat)
    (hp : t1 ≤ s.poses.length) (hd : t1 ≤ s.disps.length) (hsc : t1 ≤ s.scales.length)
    (hsh : t1 ≤ s.shifts.length) (hf : max t0 1 ≤ t1) (hdx : t1 - max t0 1 ≤ dx.length)
    (hi : t1 ≤ i) :
    state_untouched_at (MoBA_update retr t0 t1 dx s) s i
    ∧ (∀ b, state_untouched_at (BA_update retr b t0 t1 kx dx dz s) s i)
    ∧ state_untouched_at (BA_prior_update retr t0 t1 kx dx dz ds dO s) s i
    ∧ state_untouched_at (BA_prior_no_motion_update t1 kx2 dz ds dO s) s i := by
  have hpose := pose_writeback_getElem_fixed retr s.poses t0 t1 dx i hp hf hdx (Or.inr hi)
  have hdisp := structure_writeback_getElem_ge s.disps dz kx t1 i hd hi
  have hdisp2 := structure_writeback_getElem_ge s.disps dz kx2 t1 i hd hi
  have hscale := structure_writeback_getElem_ge s.scales ds kx t1 i hsc hi
  have hscale2 := structure_writeback_getElem_ge s.scales ds kx2 t1 i hsc hi
  have hshift := structure_writeback_getElem_ge s.shifts dO kx t1 i hsh hi
  have hshift2 := structure_writeback_getElem_ge s.shifts dO kx2 t1 i hsh hi
  refine ⟨⟨by simpa [MoBA_update] using hpose, rfl, rfl, rfl⟩, ?_, ?_, ?_⟩
  · intro b
    cases b
    · exact ⟨by simpa [BA_update] using hpose, by simpa [BA_update] using hdisp, rfl, rfl⟩
    · exact ⟨by simp [BA_update], by simpa [BA_update] using hdisp, rfl, rfl⟩
  · exact ⟨by simpa [BA_prior_update] using hpose, by simpa [BA_prior_update] using hdisp,
      by simpa [BA_prior_update] using hscale, by simpa [BA_prior_update] using hshift⟩
  · exact ⟨rfl, by simpa [BA_prior_no_motion_update] using hdisp2,
      by simpa [BA_prior_no_motion_update] using hscale2,
      by simpa [BA_prior_no_motion_update] using hshift2⟩

/-- C5 witness: window (1, 2) over three frames; index 2 (= t1) is untouched by
the motion-only variant. -/
theorem C5_no_write_beyond_t1_witness :
    2 ≤ ([10, 20, 30] : List ℤ).length ∧ 2 ≤ ([1, 2, 3] : List ℤ).length
    ∧ 2 ≤ ([0, 0, 0] : List ℚ).length ∧ 2 ≤ ([0, 0, 0] : List ℚ).length
    ∧ max 1 1 ≤ 2 ∧ 2 - max 1 1 ≤ ([5] : List ℤ).length ∧ 2 ≤ 2
    ∧ state_untouched_at
        (MoBA_update (fun (p d : ℤ) => p + d) 1 2 [5]
          (⟨[10, 20, 30], [1, 2, 3], [0, 0, 0], [0, 0, 0]⟩ : DepthVideoState ℤ ℤ))
        (⟨[10, 20, 30], [1, 2, 3], [0, 0, 0], [0, 0, 0]⟩ : DepthVideoState ℤ ℤ) 2 := by
  have h := C5_no_write_beyond_t1 (fun (p d : ℤ) => p + d) 1 2 ([] : List Int) ([] : List Int)
    [5] ([] : List ℤ) [] []
    (⟨[10, 20, 30], [1, 2, 3], [0, 0, 0], [0, 0, 0]⟩ : DepthVideoState ℤ ℤ) 2
    (by decide) (by decide) (by decide) (by decide) (by decide) (by decide) (by decide)
  exact ⟨by decide, by decide, by decide, by decide, by decide, by decide, by decide, h.1⟩

lemma vadd_replicate_zero (xs : List ℚ) (n : Nat) (h : xs.length = n) :
    vadd xs (List.replicate n 0) = xs := by
  subst h
  induction xs with
  | nil => rfl
  | cons x l ih => simp [vadd, List.replicate_succ] at ih ⊢; exact ih

lemma vsub_replicate_zero (xs : List ℚ) (n : Nat) (h : xs.length = n) :
    vsub xs (List.replicate n 0) = xs := by
  subst h
  induction xs with
  | nil => rfl
  | cons x l ih => simp [vsub, List.replicate_succ] at ih ⊢; exact ih

lemma vmul_replicate_one (xs : List ℚ) (n : Nat) (h : xs.length = n) :
    vmul (List.replicate n 1) xs = xs := by
  subst h
  induction xs with
  | nil => rfl
  | cons x l ih => simp [vmul, List.replicate_succ] at ih ⊢; exact ih

lemma vmul_replicate_zero (xs : List ℚ) (n : Nat) :
    vmul (List.replicate n 0) xs = List.replicate (min n xs.length) 0 := by
  induction xs generalizing n with
  | nil => simp [vmul]
  | cons x l ih =>
    cases n with
    | zero => simp [vmul]
    | succ k =>
      simp [vmul, List.replicate_succ, Nat.succ_min_succ] at ih ⊢
      exact ih k

lemma BA_damp_C_w_zero_prior (C w eta disps_kx : List ℚ) (alpha : ℚ) (n : Nat)
    (hC : C.length = n) (heta : eta.length = n) (hd : disps_kx.length = n)
    (hw : w.length = n) :
    BA_damp_C_w C w eta disps_kx (some (List.replicate n 0)) alpha
      = BA_damp_C_w C w eta disps_kx none alpha := by
  simp only [BA_damp_C_w]
  have hm : (List.replicate n (0 : ℚ)).map (fun x => if 0 < x then (1 : ℚ) else 0)
      = List.replicate n 0 := by
    simp [List.map_replicate]
  rw [hm]
  have h1 : (List.replicate n (0 : ℚ)).map (fun x => alpha * x) = List.replicate n 0 := by
    simp [List.map_replicate]
  have h2 : (List.replicate n (0 : ℚ)).map (fun x => 1 - x) = List.replicate n 1 := by
    simp [List.map_replicate]
  rw [h1, h2, vadd_replicate_zero C n hC, vmul_replicate_one eta n heta]
  rw [vsub_replicate_zero disps_kx n hd, vmul_replicate_zero]
  rw [hd, Nat.min_self, vsub_replicate_zero w n hw]

/-- C7: running the Joint BA variant with an everywhere-zero prior disparity map
produces exactly the same pose and disparity updates as running it with no
prior, for any alpha: the prior only enters through the damped (C, w) pair, and
with a zero prior the mask m = (prior > 0) vanishes, reducing C and w to the
no-prior damping. -/
theorem C7_zero_prior_equals_no_prior {P α Δ : Type} [Add α] [Zero α]
    (retr : P → Δ → P) (solver : List ℚ × List ℚ → List Δ × List α)
    (t0 t1 : Nat) (kx : List Int) (C w eta disps_kx : List ℚ) (alpha : ℚ)
    (s : DepthVideoState P α) (n : Nat)
    (hC : C.length = n) (heta : eta.length = n) (hd : disps_kx.length = n)
    (hw : w.length = n) :
    BA_full retr solver false t0 t1 kx C w eta disps_kx (some (List.replicate n 0)) alpha s
      = BA_full retr solver false t0 t1 kx C w eta disps_kx none alpha s := by
  unfold BA_full
  rw [BA_damp_C_w_zero_prior C w eta disps_kx alpha n hC heta hd hw]

/-- C7 witness: a one-node system with concrete inputs and a concrete solver:
the zero-prior run and the no-prior run agree. -/
theorem C7_zero_prior_equals_no_prior_witness :
    ([2] : List ℚ).length = 1 ∧ ([5] : List ℚ).length = 1 ∧ ([7] : List ℚ).length = 1
    ∧ ([3] : List ℚ).length = 1
    ∧ BA_full (fun (p d : ℚ) => p + d) (fun cw => ([cw.1.headD 0], [cw.2.headD 0])) false
        1 1 [0] [2] [3] [5] [7] (some (List.replicate 1 0)) (11 / 10)
        (⟨[1], [1], [1], [1]⟩ : DepthVideoState ℚ ℚ)
      = BA_full (fun (p d : ℚ) => p + d) (fun cw => ([cw.1.headD 0], [cw.2.headD 0])) false
        1 1 [0] [2] [3] [5] [7] none (11 / 10)
        (⟨[1], [1], [1], [1]⟩ : DepthVideoState ℚ ℚ) := by
  refine ⟨rfl, rfl, rfl, rfl, ?_⟩
  exact C7_zero_prior_equals_no_prior (fun (p d : ℚ) => p + d)
    (fun cw => ([cw.1.headD 0], [cw.2.headD 0])) 1 1 [0] [2] [3] [5] [7] (11 / 10)
    (⟨[1], [1], [1], [1]⟩ : DepthVideoState ℚ ℚ) 1 rfl rfl rfl rfl

lemma torch_unique_nodup (xs : List Int) : (torch_unique xs).Nodup :=
  ((List.perm_insertionSort (fun a b => a ≤ b) xs.dedup).nodup_iff).mpr (List.nodup_dedup xs)

lemma mem_torch_unique (x : Int) (xs : List Int) : x ∈ torch_unique xs ↔ x ∈ xs := by
  simp [torch_unique]

lemma mem_torch_arange (i t0 t1 : Nat) (h0 : t0 ≤ i) (h1 : i < t1) :
    (i : Int) ∈ torch_arange t0 t1 := by
  have hg : (torch_arange t0 t1)[i - t0]? = some (i : Int) := by
    unfold torch_arange
    rw [List.getElem?_map, List.getElem?_range (by omega)]
    simp only [Option.map_some', Option.some.injEq]
    omega
  exact List.getElem?_mem hg

lemma mem_kx_exp (ii : List Int) (t0 t1 i : Nat) (h0 : t0 ≤ i) (h1 : i < t1) :
    (i : Int) ∈ kx_exp_of ii t0 t1 := by
  unfold kx_exp_of
  rw [mem_torch_unique]
  exact List.mem_append_left _ (mem_torch_arange i t0 t1 h0 h1)

lemma mask_assign_getElem_false {α : Type} (base : List α) (mask : List Bool)
    (vals : List α) (j : Nat) (h : mask[j]? = some false) :
    (mask_assign base mask vals)[j]? = base[j]? := by
  induction base generalizing mask vals j with
  | nil =>
    cases mask with
    | nil => rfl
    | cons m ms => rfl
  | cons b bs ih =>
    cases mask with
    | nil => rfl
    | cons m ms =>
      cases j with
      | zero =>
        have hm : m = false := by simpa using h
        subst hm
        simp [mask_assign]
      | succ j =>
        have hj : ms[j]? = some false := by simpa using h
        cases m with
        | false =>
          simp only [mask_assign, Bool.false_eq_true, if_false]
          simpa using ih ms vals j hj
        | true =>
          simp only [mask_assign, if_true]
          cases vals with
          | nil => simpa using ih ms [] j hj
          | cons v vs => simpa using ih ms vs j hj

lemma scatter_sum_getElem_of_not_mem {α : Type} [AddMonoid α] (ps : List (Int × α))
    (n t : Nat) (h : ∀ p ∈ ps, 0 ≤ p.1 → p.1.toNat ≠ t) (ht : t < n) :
    (scatter_sum ps n)[t]? = some 0 := by
  induction ps with
  | nil => simp [scatter_sum, ht]
  | cons p ps ih =>
    obtain ⟨i, a⟩ := p
    simp only [scatter_sum]
    split
    case isTrue hcond =>
      have hne : i.toNat ≠ t := h (i, a) (List.mem_cons_self _ _) hcond.1
      rw [List.getElem?_set_ne hne]
      exact ih fun q hq hq0 => h q (List.mem_cons_of_mem _ hq) hq0
    case isFalse hcond =>
      exact ih fun q hq hq0 => h q (List.mem_cons_of_mem _ hq) hq0

lemma scatter_sum_zip_getElem {α : Type} [AddMonoid α] (kxe : List Int) (dz : List α)
    (n k : Nat) (i : Int) (hnd : kxe.Nodup) (hlen : dz.length = kxe.length)
    (hk : kxe[k]? = some i) (hi0 : 0 ≤ i) (hin : i.toNat < n) :
    ∃ z, dz[k]? = some z ∧ (scatter_sum (kxe.zip dz) n)[i.toNat]? = some z := by
  induction kxe generalizing dz k with
  | nil => simp at hk
  | cons x xs ih =>
    cases dz with
    | nil => simp at hlen
    | cons z zs =>
      have hlen2 : zs.length = xs.length := by simpa using hlen
      have hzip : (x :: xs).zip (z :: zs) = (x, z) :: xs.zip zs := rfl
      cases k with
      | zero =>
        have hx : x = i := by simpa using hk
        subst hx
        refine ⟨z, by simp, ?_⟩
        have hnm : (scatter_sum (xs.zip zs) n)[x.toNat]? = some 0 := by
          refine scatter_sum_getElem_of_not_mem _ n x.toNat ?_ hin
          intro p hp hp0 htn
          have hpx : p.1 = x := by
            rw [← Int.toNat_of_nonneg hp0, htn, Int.toNat_of_nonneg hi0]
          exact (List.nodup_cons.mp hnd).1 (hpx ▸ (List.of_mem_zip hp).1)
        rw [hzip]
        simp only [scatter_sum]
        rw [if_pos ⟨hi0, hin⟩]
        rw [List.getElem?_set_self (by rw [scatter_sum_length]; exact hin)]
        rw [List.getD_eq_getElem?_getD, hnm]
        simp
      | succ k =>
        have hk2 : xs[k]? = some i := by simpa using hk
        have hmem : i ∈ xs := List.getElem?_mem hk2
        have hx : x ≠ i := fun he => (List.nodup_cons.mp hnd).1 (he ▸ hmem)
        obtain ⟨z2, hz2, hsc⟩ := ih zs k (List.nodup_cons.mp hnd).2 hlen2 hk2
        refine ⟨z2, by simpa using hz2, ?_⟩
        rw [hzip]
        simp only [scatter_sum]
        split
        case isTrue hcond =>
          have hne : x.toNat ≠ i.toNat := by
            intro he
            exact hx (by rw [← Int.toNat_of_nonneg hcond.1, he, Int.toNat_of_nonneg hi0])
          rw [List.getElem?_set_ne hne]
          exact hsc
        case isFalse hcond => exact hsc

lemma additive_retr_getElem {α : Type} [AddMonoid α] (disps dz : List α) (kxe : List Int)
    (i k : Nat) (hnd : kxe.Nodup) (hlen : dz.length = kxe.length)
    (hk : kxe[k]? = some (i : Int)) (hi : i < disps.length) :
    ∃ d z, disps[i]? = some d ∧ dz[k]? = some z ∧
      (additive_retr disps dz kxe)[i]? = some (d + z) := by
  obtain ⟨z, hz, hsc⟩ := scatter_sum_zip_getElem kxe dz disps.length k (i : Int) hnd hlen hk
    (Int.natCast_nonneg i) (by simpa using hi)
  rw [Int.toNat_natCast] at hsc
  refine ⟨disps[i], z, List.getElem?_eq_getElem hi, hz, ?_⟩
  unfold additive_retr
  rw [List.getElem?_zipWith, List.getElem?_eq_getElem hi, hsc]

lemma exp_pad_getElem_absent {α : Type} [Zero α] (ii : List Int) (t0 t1 : Nat)
    (C : List α) (j : Nat) (x : Int)
    (hj : (kx_exp_of ii t0 t1)[j]? = some x) (hx : x ∉ kx_of ii) :
    (exp_pad_of ii t0 t1 C)[j]? = some 0 := by
  have hjlt : j < (kx_exp_of ii t0 t1).length := by
    by_contra hge
    rw [List.getElem?_eq_none (by omega)] at hj
    cases hj
  have hmask : (non_empty_nodes_of ii t0 t1)[j]? = some false := by
    unfold non_empty_nodes_of
    rw [List.getElem?_map, hj]
    simp [hx]
  unfold exp_pad_of
  rw [mask_assign_getElem_false _ _ _ _ hmask]
  exact List.getElem?_replicate_of_lt hjlt

lemma no_motion_structure_getElem {α : Type} [AddMonoid α]
    (xs : List α) (dz : List α) (kxe : List Int) (t1 i k : Nat)
    (hx : t1 ≤ xs.length) (hnd : kxe.Nodup) (hlen : dz.length = kxe.length)
    (hk : kxe[k]? = some (i : Int)) (hi : i < t1) :
    ∃ d z, xs[i]? = some d ∧ dz[k]? = some z ∧
      (slice_assign xs t1 (additive_retr (xs.take t1) dz kxe))[i]? = some (d + z) := by
  have htake : (xs.take t1).length = t1 := by simp [List.length_take]; omega
  obtain ⟨d, z, hd, hz, hval⟩ := additive_retr_getElem (xs.take t1) dz kxe i k hnd hlen hk
    (by omega)
  rw [List.getElem?_take_of_lt hi] at hd
  refine ⟨d, z, hd, hz, ?_⟩
  rw [slice_assign_getElem_lt _ _ _ _ (by rw [additive_retr_length, htake]) hi]
  exact hval

/-- C6: the Prior-structure-only variant expands the solved node set to contain
every frame of the window [t0, t1) even when absent from the edge set; the
structure blocks and rhs entries of absent nodes are zero-padded before
assembly; every frame of the window receives a disparity, scale and shift
update through its own slot of the solved update vectors; the poses are left
completely unchanged. -/
theorem C6_prior_no_motion_expands_window {P α : Type} [AddMonoid α]
    (ii : List Int) (t0 t1 : Nat) (dz : List α) (ds dO : List ℚ) (C w : List α)
    (s : DepthVideoState P α)
    (hd : t1 ≤ s.disps.length) (hsc : t1 ≤ s.scales.length) (hsh : t1 ≤ s.shifts.length)
    (hdz : dz.length = (kx_exp_of ii t0 t1).length)
    (hds : ds.length = (kx_exp_of ii t0 t1).length)
    (hdO : dO.length = (kx_exp_of ii t0 t1).length) :
    (BA_prior_no_motion_update t1 (kx_exp_of ii t0 t1) dz ds dO s).poses = s.poses
    ∧ (∀ i : Nat, t0 ≤ i → i < t1 → (i : Int) ∈ kx_exp_of ii t0 t1)
    ∧ (∀ (j : Nat) (x : Int), (kx_exp_of ii t0 t1)[j]? = some x → x ∉ kx_of ii →
        (exp_pad_of ii t0 t1 C)[j]? = some 0 ∧ (exp_pad_of ii t0 t1 w)[j]? = some 0)
    ∧ (∀ i : Nat, t0 ≤ i → i < t1 → ∃ k : Nat, (kx_exp_of ii t0 t1)[k]? = some (i : Int)
        ∧ (∃ (d z : α), s.disps[i]? = some d ∧ dz[k]? = some z
            ∧ (BA_prior_no_motion_update t1 (kx_exp_of ii t0 t1) dz ds dO s).disps[i]?
              = some (d + z))
        ∧ (∃ (d z : ℚ), s.scales[i]? = some d ∧ ds[k]? = some z
            ∧ (BA_prior_no_motion_update t1 (kx_exp_of ii t0 t1) dz ds dO s).scales[i]?
              = some (d + z))
        ∧ (∃ (d z : ℚ), s.shifts[i]? = some d ∧ dO[k]? = some z
            ∧ (BA_prior_no_motion_update t1 (kx_exp_of ii t0 t1) dz ds dO s).shifts[i]?
              = some (d + z))) := by
  have hnd : (kx_exp_of ii t0 t1).Nodup := torch_unique_nodup _
  refine ⟨by simp [BA_prior_no_motion_update], fun i h0 h1 => mem_kx_exp ii t0 t1 i h0 h1,
    ?_, ?_⟩
  · intro j x hj hx
    exact ⟨exp_pad_getElem_absent ii t0 t1 C j x hj hx,
      exp_pad_getElem_absent ii t0 t1 w j x hj hx⟩
  · intro i h0 h1
    obtain ⟨k, hk⟩ := List.mem_iff_getElem?.mp (mem_kx_exp ii t0 t1 i h0 h1)
    refine ⟨k, hk, ?_, ?_, ?_⟩
    · obtain ⟨d, z, hd2, hz2, hval⟩ :=
        no_motion_structure_getElem s.disps dz (kx_exp_of ii t0 t1) t1 i k hd hnd hdz hk h1
      exact ⟨d, z, hd2, hz2, by simpa [BA_prior_no_motion_update] using hval⟩
    · obtain ⟨d, z, hd2, hz2, hval⟩ :=
        no_motion_structure_getElem s.scales ds (kx_exp_of ii t0 t1) t1 i k hsc hnd hds hk h1
      exact ⟨d, z, hd2, hz2, by simpa [BA_prior_no_motion_update] using hval⟩
    · obtain ⟨d, z, hd2, hz2, hval⟩ :=
        no_motion_structure_getElem s.shifts dO (kx_exp_of ii t0 t1) t1 i k hsh hnd hdO hk h1
      exact ⟨d, z, hd2, hz2, by simpa [BA_prior_no_motion_update] using hval⟩

/-- C6 witness: edges touch only frame 0, window (1, 2): the expanded node set
[0, 1] includes frame 1 although it appears in no edge; frame 1 is zero-padded
(it is absent from kx) and still receives its own disparity update slot, and the
poses are untouched. -/
theorem C6_prior_no_motion_expands_window_witness :
    2 ≤ ((⟨[9], [5, 6], [0, 0], [0, 0]⟩ : DepthVideoState ℤ ℤ)).disps.length
    ∧ ([100, 200] : List ℤ).length = (kx_exp_of [0] 1 2).length
    ∧ (BA_prior_no_motion_update 2 (kx_exp_of [0] 1 2) [100, 200] [0, 0] [0, 0]
        (⟨[9], [5, 6], [0, 0], [0, 0]⟩ : DepthVideoState ℤ ℤ)).poses
      = (⟨[9], [5, 6], [0, 0], [0, 0]⟩ : DepthVideoState ℤ ℤ).poses
    ∧ (1 : Int) ∈ kx_exp_of [0] 1 2
    ∧ ((kx_exp_of [0] 1 2)[1]? = some (1 : Int))
    ∧ ((1 : Int) ∉ kx_of [0])
    ∧ (exp_pad_of [0] 1 2 ([3] : List ℤ))[1]? = some 0
    ∧ (∃ k : Nat, (kx_exp_of [0] 1 2)[k]? = some (1 : Int)
        ∧ (∃ (d z : ℤ),
            (⟨[9], [5, 6], [0, 0], [0, 0]⟩ : DepthVideoState ℤ ℤ).disps[1]? = some d
            ∧ ([100, 200] : List ℤ)[k]? = some z
            ∧ (BA_prior_no_motion_update 2 (kx_exp_of [0] 1 2) [100, 200] [0, 0] [0, 0]
                (⟨[9], [5, 6], [0, 0], [0, 0]⟩ : DepthVideoState ℤ ℤ)).disps[1]?
              = some (d + z))) := by
  have h := C6_prior_no_motion_expands_window [0] 1 2 ([100, 200] : List ℤ) [0, 0] [0, 0]
    ([3] : List ℤ) ([4] : List ℤ) (⟨[9], [5, 6], [0, 0], [0, 0]⟩ : DepthVideoState ℤ ℤ)
    (by decide) (by decide) (by decide) (by decide) (by decide) (by decide)
  refine ⟨by decide, by decide, h.1, h.2.1 1 (by decide) (by decide), by decide, by decide,
    (h.2.2.1 1 1 (by decide) (by decide)).1, ?_⟩
  obtain ⟨k, hk, hdisp, _, _⟩ := h.2.2.2 1 (by decide) (by decide)
  exact ⟨k, hk, hdisp⟩
